import Mathlib

set_option autoImplicit false

namespace RagMcp

/-!
Shallow embedding of the tool-session broker (`src/mcp_client.py`), the
conversation-history store (`src/history.py`), the catalog merge in
`src/agent.py` / `backend/api.py`, and the two chat dispatch loops of
`backend/api.py`.
-/

/-! ## URL normalization, `src/mcp_client.py` lines 71-77 and `backend/api.py` lines 819-825

Internally we work on the reversed character list, so that Python suffix
operations become prefix operations on lists. -/

/-- Python `s.rstrip('/')`, acting on the reversed character list. -/
def rstripSlashR (r : List Char) : List Char :=
  r.dropWhile (fun c => c == '/')

/-- `"/sse"` reversed. -/
def sseR : List Char := ['e', 's', 's', '/']

/-- `"/mcp"` reversed. -/
def mcpR : List Char := ['p', 'c', 'm', '/']

/-- The normalization pipeline of `mcp_client.py` lines 72-77, on the reversed
character list: strip trailing slashes, remove one trailing `/sse`, and if the
result does not end with `/mcp`, strip trailing slashes again and append `/mcp`. -/
def normalizeUrlR (r : List Char) : List Char :=
  let r1 := rstripSlashR r
  let r2 := if sseR.isPrefixOf r1 then r1.drop 4 else r1
  if mcpR.isPrefixOf r2 then r2 else mcpR ++ rstripSlashR r2

/-- `final_url` as computed from `server_url` in `mcp_client.py` lines 72-77. -/
def normalizeUrl (s : String) : String :=
  ⟨(normalizeUrlR s.data.reverse).reverse⟩

/-- Python `s.endswith(suf)`. -/
def endsWithStr (s suf : String) : Bool :=
  suf.data.reverse.isPrefixOf s.data.reverse

/-- Python `s.rstrip('/')` on strings. -/
def rstripSlash (s : String) : String :=
  ⟨(s.data.reverse.dropWhile (fun c => c == '/')).reverse⟩

/-- Python `s.lower()`, character by character (the names involved are
ASCII). -/
def strLower (s : String) : String :=
  ⟨s.data.map Char.toLower⟩

/-! ## Tools and the merged catalog

A LangChain tool, as the broker and the agent see it: a name and a
description (`src/tools.py`, the BaseTool shape used throughout). -/

structure Tool where
  name : String
  description : String
deriving Repr, DecidableEq

/-- The local RAG tool of `src/tools.py` lines 8-13. -/
def retrieveDosiblogContext : Tool :=
  { name := "retrieve_dosiblog_context"
    description := "Retrieves relevant context about DosiBlog projects and related topics." }

/-- `all_tools = [retrieve_dosiblog_context] + mcp_tools`
(`src/agent.py` line 115, `backend/api.py` lines 132 and 413):
plain list concatenation, local tools first. -/
def mergedCatalog (localTools mcpTools : List Tool) : List Tool :=
  localTools ++ mcpTools

/-! ## Provider configuration (`src/mcp_client.py`) -/

/-- One entry of `mcp_servers`: a dict with `name`, `url`, optional `headers`,
`api_key` and `api_key_header` (`mcp_client.py` lines 64-91). The `name`
default mirrors `server_config.get("name", "Unknown")`. -/
structure ServerConfig where
  name : String := "Unknown"
  url : String
  headers : List (String × String) := []
  apiKey : Option String := none
  apiKeyHeader : Option String := none
deriving Repr, DecidableEq

/-- Python dict assignment `headers[k] = v` on an association list. -/
def setHeader (hs : List (String × String)) (k v : String) : List (String × String) :=
  if hs.any (fun p => p.1 == k) then
    hs.map (fun p => if p.1 == k then (k, v) else p)
  else
    hs ++ [(k, v)]

/-- Header construction of `mcp_client.py` lines 85-92: start from the
configured headers; when `api_key` is set, store it under `api_key_header`
(default `x-api-key`). -/
def buildHeaders (cfg : ServerConfig) : List (String × String) :=
  match cfg.apiKey with
  | none => cfg.headers
  | some key => setHeader cfg.headers (cfg.apiKeyHeader.getD "x-api-key") key

/-! ## Local-server rewrite (`src/mcp_client.py` lines 33-61) -/

/-- The keys of `MCP_SERVERS` in `mcp_servers/registry.py` lines 8-14;
`get_mcp_server(name)` succeeds exactly when `name.lower()` is one of them. -/
def localServerNames : List String := ["math", "weather", "web", "people", "jack"]

/-- `base_url` of `mcp_client.py` lines 41-45: `http://localhost:{port}`,
with trailing slashes stripped when present. -/
def localBaseUrl (port : String) : String :=
  let baseUrl := "http://localhost:" ++ port
  if endsWithStr baseUrl "/" then rstripSlash baseUrl else baseUrl

/-- Lines 50-58: when the lowercased configured name matches a local registry
entry, the `url` field of the caller-supplied config dict is overwritten in
place with `{base_url}/api/mcp/{config_name}/mcp`. -/
def rewriteLocal (port : String) (cfg : ServerConfig) : ServerConfig :=
  let configName := strLower cfg.name
  if localServerNames.contains configName then
    { cfg with url := localBaseUrl port ++ "/api/mcp/" ++ configName ++ "/mcp" }
  else
    cfg

/-- The whole `prefer_local` loop over `self.mcp_servers` (lines 50-58): the
caller-visible value of the provider list after `__aenter__` ran the
optimization. -/
def preferLocalRewrite (port : String) (cfgs : List ServerConfig) : List ServerConfig :=
  cfgs.map (rewriteLocal port)

/-! ## The per-provider setup and the broker state (`src/mcp_client.py` lines 64-125)

For each configured provider the code, inside one `try`, opens the transport
(`streamablehttp_client(...).__aenter__`), opens the protocol session and runs
`initialize`, and finally discovers tools via `load_mcp_tools`. Which of those
suspending calls fails is decided by the outside world; we model it as a
`SetupOutcome` chosen by the environment for each provider. -/

inductive SetupOutcome where
  /-- `streamablehttp_client(**server_params).__aenter__()` raised:
  the transport never opened. -/
  | connectFail (msg : String)
  /-- the transport opened, but `ClientSession.__aenter__` or
  `session.initialize()` raised. -/
  | sessionFail (msg : String)
  /-- transport and session opened and initialized, but `load_mcp_tools`
  raised. -/
  | discoverFail (msg : String)
  /-- every step succeeded and the provider advertised `tools`. -/
  | ok (tools : List Tool)
deriving Repr, DecidableEq

def SetupOutcome.isOk : SetupOutcome → Bool
  | .ok _ => true
  | _ => false

/-- Whether the provider reached at least transport-open state. -/
def SetupOutcome.reachedTransportOpen : SetupOutcome → Bool
  | .connectFail _ => false
  | _ => true

/-- The body of the `try` block, lines 81-107: the `Except.error` value is the
exception that the `except` clause at lines 112-121 catches and logs. -/
def setupProvider (out : SetupOutcome) : Except String (List Tool) :=
  match out with
  | .connectFail m => .error m
  | .sessionFail m => .error m
  | .discoverFail m => .error m
  | .ok tools => .ok tools

/-- Observable state accumulated by `MCPClientManager.__aenter__`:
`tools` and `sessions` are the fields of the manager (lines 24-25); sessions
are recorded by index, in setup order, exactly when line 107 appended the
`(client, session)` pair. `transportOpened` and `connectAttempted` are the
trace of the underlying suspending calls, kept for reasoning: which provider
indices reached transport-open state, and which indices had a transport open
attempted at which normalized URL. -/
structure BrokerState where
  tools : List Tool
  sessions : List Nat
  transportOpened : List Nat
  connectAttempted : List Nat × List String
deriving Repr, DecidableEq

/-- The loop over `self.mcp_servers` at lines 64-123, provider `i` first.
Every provider's URL is normalized and its headers are built, a transport
open is attempted, and only a fully successful setup extends `tools` and
appends to `sessions`; any error raised inside the `try` is caught at
lines 112-121 (matched on the `Except.error` branch) and the loop continues
with the next provider. -/
def aenterLoop : Nat → List (ServerConfig × SetupOutcome) → BrokerState → BrokerState
  | _, [], st => st
  | i, (cfg, out) :: rest, st =>
    let finalUrl := normalizeUrl cfg.url
    let _hs := buildHeaders cfg
    let st' : BrokerState :=
      { tools := st.tools ++ (match setupProvider out with
          | .ok ts => ts
          | .error _ => [])
        sessions := st.sessions ++ (match setupProvider out with
          | .ok _ => [i]
          | .error _ => [])
        transportOpened := st.transportOpened ++
          (if out.reachedTransportOpen then [i] else [])
        connectAttempted :=
          (st.connectAttempted.1 ++ [i], st.connectAttempted.2 ++ [finalUrl]) }
    aenterLoop (i + 1) rest st'

/-- `MCPClientManager.__aenter__` for a configured provider list whose setup
outcomes the environment chose: returns the manager state (its `.tools` is the
value the `async with` binds). Total: no provider outcome makes it raise. -/
def brokerEnter (l : List (ServerConfig × SetupOutcome)) : BrokerState :=
  aenterLoop 0 l ⟨[], [], [], ([], [])⟩

/-- `MCPClientManager.__aexit__` (lines 128-165): one teardown attempt per
recorded session, in `reversed(self.sessions)` order; each attempt closes the
protocol session then the transport, both under a one-second timeout with
every exception swallowed, so the attempt list is the whole observable
behavior. Returns the provider indices in teardown-attempt order. -/
def brokerExit (st : BrokerState) : List Nat :=
  st.sessions.reverse

/-- The tools the providers of `l` contribute to `self.tools`, in provider
order then discovery order (successful providers only). -/
def okTools : List (ServerConfig × SetupOutcome) → List Tool
  | [] => []
  | (_, out) :: rest =>
    (match out with
      | .ok ts => ts
      | _ => []) ++ okTools rest

/-- Indices (starting at `i`) of the providers whose setup fully succeeded. -/
def okIndicesFrom : Nat → List (ServerConfig × SetupOutcome) → List Nat
  | _, [] => []
  | i, (_, out) :: rest =>
    (if out.isOk then [i] else []) ++ okIndicesFrom (i + 1) rest

/-- Indices (starting at `i`) of the providers that reached transport-open. -/
def transportsFrom : Nat → List (ServerConfig × SetupOutcome) → List Nat
  | _, [] => []
  | i, (_, out) :: rest =>
    (if out.reachedTransportOpen then [i] else []) ++ transportsFrom (i + 1) rest

/-- The connection attempts the loop makes, as index and normalized URL
lists: one per configured provider, unconditionally. -/
def attemptsFrom : Nat → List (ServerConfig × SetupOutcome) → List Nat × List String
  | _, [] => ([], [])
  | i, (cfg, _) :: rest =>
    let r := attemptsFrom (i + 1) rest
    (i :: r.1, normalizeUrl cfg.url :: r.2)

/-- Modelled from the spec: the invariant "endpoint must be a valid absolute
URL after normalization" presupposes a validity check that the code does not
contain; an absolute URL here is a nonempty scheme, the literal "://", and a
nonempty remainder. -/
def splitScheme : List Char → Option (List Char × List Char)
  | [] => none
  | ':' :: '/' :: '/' :: rest => some ([], rest)
  | c :: rest => (splitScheme rest).map (fun p => (c :: p.1, p.2))

/-- Modelled from the spec: whether `s` is a valid absolute URL. -/
def isAbsoluteUrl (s : String) : Bool :=
  match splitScheme s.data with
  | some (scheme, rest) => !scheme.isEmpty && !rest.isEmpty
  | none => false

/-! ## Conversation history store (`src/history.py`, `ConversationHistoryManager`) -/

inductive Role where
  | user
  | assistant
deriving Repr, DecidableEq

/-- One turn of a `ChatMessageHistory`: `add_user_message` appends a user
turn, `add_ai_message` an assistant turn. -/
structure Message where
  role : Role
  content : String
deriving Repr, DecidableEq

/-- `self.store: Dict[str, ChatMessageHistory]` (line 15). Python dicts keep
insertion order, so an association list keyed by session id. -/
abbrev HistoryStore := List (String × List Message)

/-- Python `session_id in self.store` / `self.store[session_id]`. -/
def lookupSession : HistoryStore → String → Option (List Message)
  | [], _ => none
  | (k, v) :: rest, sid => if k == sid then some v else lookupSession rest sid

/-- Lines 28-30: create the entry lazily when absent. -/
def getOrCreate (st : HistoryStore) (sid : String) : HistoryStore :=
  match lookupSession st sid with
  | some _ => st
  | none => st ++ [(sid, [])]

/-- `get_session_history` (lines 18-31): returns the live turn sequence of
the session, creating the session when absent; the second component is the
store afterwards. -/
def get_session_history (st : HistoryStore) (sid : String) : List Message × HistoryStore :=
  let st' := getOrCreate st sid
  ((lookupSession st' sid).getD [], st')

/-- Mutation of the `ChatMessageHistory` object held under `sid`:
appending one message to its turn sequence. -/
def appendInStore : HistoryStore → String → Message → HistoryStore
  | [], _, _ => []
  | (k, v) :: rest, sid, m =>
    if k == sid then (k, v ++ [m]) :: rest
    else (k, v) :: appendInStore rest sid m

/-- The callers' append pattern (`src/agent.py` lines 58-60, `backend/api.py`
lines 263-265): `get_session_history(sid)` then `add_user_message` or
`add_ai_message` on the returned object. -/
def addMessage (st : HistoryStore) (sid : String) (m : Message) : HistoryStore :=
  appendInStore (get_session_history st sid).2 sid m

/-- `get_session_messages` (lines 33-37): the messages when the session
exists, `[]` otherwise; the store is returned to record that the method
performs no mutation. -/
def get_session_messages (st : HistoryStore) (sid : String) : List Message × HistoryStore :=
  match lookupSession st sid with
  | some ms => (ms, st)
  | none => ([], st)

/-- `ChatMessageHistory.clear` on the entry under `sid`. -/
def clearInStore : HistoryStore → String → HistoryStore
  | [], _ => []
  | (k, v) :: rest, sid =>
    if k == sid then (k, []) :: rest
    else (k, v) :: clearInStore rest sid

/-- `clear_session` (lines 39-43): clears the turn sequence only when the
session id is already a key of the store. -/
def clear_session (st : HistoryStore) (sid : String) : HistoryStore :=
  match lookupSession st sid with
  | some _ => clearInStore st sid
  | none => st

/-- `list_sessions` (lines 45-47): `list(self.store.keys())`. -/
def list_sessions (st : HistoryStore) : List String :=
  st.map Prod.fst

/-! ## Chat dispatch loops (`backend/api.py`)

The agent framework is opaque: per request it produces a stream of state
snapshots whose last message is an AI message carrying either tool-call
requests or textual content, or some other message kind. The endpoint loops
consume that stream; we model the stream as a list of events. The `content`
of an answer event is the string the content-normalization branches
(lines 238-260 and 638-663) produce. -/

inductive AgentEvent where
  | aiToolCalls (names : List String)
  | aiAnswer (content : String)
  | otherMsg
deriving Repr, DecidableEq

/-- The non-streaming agent-mode response (`/api/chat`, lines 229-272). -/
structure ChatOutcome where
  final_answer : String
  tools_used : List String
deriving Repr, DecidableEq

/-- The `astream` consumer loop of the non-streaming `chat` endpoint,
lines 230-260: tool-call names are appended to `tools_used` with no check
against the catalog; a content message replaces `final_answer`. -/
def chatAgentLoop : List AgentEvent → ChatOutcome → ChatOutcome
  | [], acc => acc
  | e :: rest, acc =>
    match e with
    | .aiToolCalls names =>
      chatAgentLoop rest { acc with tools_used := acc.tools_used ++ names }
    | .aiAnswer c =>
      chatAgentLoop rest { acc with final_answer := c }
    | .otherMsg => chatAgentLoop rest acc

/-- The whole agent branch of the non-streaming `chat` endpoint, as a
function of the catalog and the event stream. The result type has an error
branch so that the presence of a surfaced validation error is expressible;
the code of lines 229-272 contains no tool-name validation, so the catalog
argument is unread and the error branch is never produced. -/
def chatEndpointAgent (_catalog : List Tool) (events : List AgentEvent) :
    Except String ChatOutcome :=
  .ok (chatAgentLoop events { final_answer := "", tools_used := [] })

/-- One server-sent event of the streaming endpoint (`/api/chat/stream`). -/
inductive StreamItem where
  /-- `{chunk: "", done: false, tool: name}` (line 635). -/
  | toolNote (name : String)
  /-- `{chunk: c, done: false}` (line 669). -/
  | chunk (c : Char)
  /-- `{error: msg, done: true}` followed by `return` (lines 628-629). -/
  | errorDone (msg : String)
  /-- the final `{chunk: "", done: true, tools_used: ...}` (line 698). -/
  | doneItem (tools_used : List String)
deriving Repr, DecidableEq

/-- The loop state of lines 601-603. -/
structure StreamState where
  full_response : String
  tool_calls_made : List String
  seen_tools : List String
deriving Repr, DecidableEq

/-- The error payload of lines 623-627. -/
def toolErrorMsg (name : String) (tool_names : List String) : String :=
  "Tool '" ++ name ++ "' not found. Available tools are: "
    ++ String.intercalate ", " tool_names
    ++ ". Please only use tools from the available list."

/-- The inner `for call in last_msg.tool_calls` loop, lines 611-635: each
proposed name is validated against `all_tools`; an unknown name yields the
error event and returns from the generator (the `Except.error` branch, which
carries everything emitted); a known unseen name yields a tool notification. -/
def processToolCalls (all_tools : List Tool) (tool_names : List String) :
    List String → StreamState → Except (List StreamItem) (List StreamItem × StreamState)
  | [], st => .ok ([], st)
  | name :: rest, st =>
    if all_tools.any (fun t => t.name == name) then
      if st.seen_tools.contains name then
        processToolCalls all_tools tool_names rest st
      else
        match processToolCalls all_tools tool_names rest
            { st with
              tool_calls_made := st.tool_calls_made ++ [name]
              seen_tools := st.seen_tools ++ [name] } with
        | .ok (items, st') => .ok (StreamItem.toolNote name :: items, st')
        | .error items => .error (StreamItem.toolNote name :: items)
    else
      .error [StreamItem.errorDone (toolErrorMsg name tool_names)]

/-- One iteration of the `astream` consumer, lines 606-670: tool calls go
through validation; content is streamed character by character as the excess
over what was already streamed (lines 665-670). -/
def processStreamEvent (all_tools : List Tool) (tool_names : List String) :
    AgentEvent → StreamState → Except (List StreamItem) (List StreamItem × StreamState)
  | .aiToolCalls names, st => processToolCalls all_tools tool_names names st
  | .aiAnswer c, st =>
    if c ≠ "" ∧ c ≠ st.full_response then
      let newContent := c.drop st.full_response.length
      .ok ((newContent.data.map StreamItem.chunk),
        { st with full_response := st.full_response ++ newContent })
    else
      .ok ([], st)
  | .otherMsg, st => .ok ([], st)

/-- The streaming agent loop, lines 605-698: events are consumed in order; a
validation error ends the stream at the error event (the generator returns);
otherwise the final done event (line 698) closes the stream. -/
def streamAgentLoop (all_tools : List Tool) (tool_names : List String) :
    List AgentEvent → StreamState → List StreamItem
  | [], st => [StreamItem.doneItem st.tool_calls_made]
  | e :: rest, st =>
    match processStreamEvent all_tools tool_names e st with
    | .ok (items, st') => items ++ streamAgentLoop all_tools tool_names rest st'
    | .error items => items

/-- The agent branch of the streaming endpoint: `tool_names` is derived from
`all_tools` (lines 545-560), and the loop starts from the empty state. -/
def chat_stream_agent (all_tools : List Tool) (events : List AgentEvent) : List StreamItem :=
  streamAgentLoop all_tools (all_tools.map Tool.name) events
    { full_response := "", tool_calls_made := [], seen_tools := [] }

example : normalizeUrl "http://h/path/" = "http://h/path/mcp" := by decide
example : normalizeUrl "http://h/api/sse" = "http://h/api/mcp" := by decide
example : normalizeUrl "http://h/mcp" = "http://h/mcp" := by decide
example : normalizeUrl "" = "/mcp" := by decide
example : endsWithStr "http://h/mcp" "/mcp" = true := by decide

theorem mcpR_isPrefixOf_step (r2 : List Char) :
    mcpR.isPrefixOf (if mcpR.isPrefixOf r2 then r2 else mcpR ++ rstripSlashR r2) = true := by
  by_cases h : mcpR.isPrefixOf r2 = true
  · rw [if_pos h]
    exact h
  · rw [if_neg h]
    exact List.isPrefixOf_iff_prefix.mpr (List.prefix_append _ _)

theorem mcpR_isPrefixOf_normalizeUrlR (r : List Char) :
    mcpR.isPrefixOf (normalizeUrlR r) = true := by
  unfold normalizeUrlR
  exact mcpR_isPrefixOf_step _

theorem normalizeUrlR_fixed (r : List Char) (h : mcpR.isPrefixOf r = true) :
    normalizeUrlR r = r := by
  obtain ⟨t, ht⟩ := List.isPrefixOf_iff_prefix.mp h
  subst ht
  simp [normalizeUrlR, rstripSlashR, mcpR, sseR, List.isPrefixOf, List.dropWhile]

theorem normalizeUrlR_idem (r : List Char) :
    normalizeUrlR (normalizeUrlR r) = normalizeUrlR r :=
  normalizeUrlR_fixed _ (mcpR_isPrefixOf_normalizeUrlR r)

theorem mcp_data_reverse : ("/mcp" : String).data.reverse = mcpR := by decide

theorem data_normalizeUrl (u : String) :
    (normalizeUrl u).data.reverse = normalizeUrlR u.data.reverse := by
  simp [normalizeUrl]

/-- C7: for every configured provider endpoint URL, the broker normalizes it
before connecting: trailing slashes are stripped, a trailing "/sse" suffix is
removed, and "/mcp" is appended when the URL does not already end with "/mcp";
the result always ends with "/mcp", a URL already ending in "/mcp" is left
unchanged (so exactly one such suffix results), and normalization is
idempotent. -/
theorem c7_normalize_url_canonical (u : String) :
    endsWithStr (normalizeUrl u) "/mcp" = true
  ∧ normalizeUrl (normalizeUrl u) = normalizeUrl u
  ∧ (endsWithStr u "/mcp" = true → normalizeUrl u = u)
  ∧ normalizeUrl (u ++ "/") = normalizeUrl u := by
  refine ⟨?_, ?_, ?_, ?_⟩
  · unfold endsWithStr
    rw [mcp_data_reverse, data_normalizeUrl]
    exact mcpR_isPrefixOf_normalizeUrlR _
  · show String.mk (normalizeUrlR ((normalizeUrlR u.data.reverse).reverse.reverse)).reverse
      = String.mk (normalizeUrlR u.data.reverse).reverse
    rw [List.reverse_reverse, normalizeUrlR_idem]
  · intro h
    unfold endsWithStr at h
    rw [mcp_data_reverse] at h
    show String.mk (normalizeUrlR u.data.reverse).reverse = u
    rw [normalizeUrlR_fixed _ h, List.reverse_reverse]
  · show String.mk (normalizeUrlR (u ++ "/").data.reverse).reverse
      = String.mk (normalizeUrlR u.data.reverse).reverse
    have hdata : (u ++ "/").data.reverse = '/' :: u.data.reverse := by
      rw [String.data_append]
      rw [show ("/" : String).data = ['/'] from rfl]
      simp
    rw [hdata]
    have hslash : normalizeUrlR ('/' :: u.data.reverse) = normalizeUrlR u.data.reverse := by
      simp [normalizeUrlR, rstripSlashR, List.dropWhile]
    rw [hslash]

theorem c7_witness :
    endsWithStr "http://h/mcp" "/mcp" = true
  ∧ normalizeUrl "http://h/mcp" = "http://h/mcp" :=
  ⟨by decide, (c7_normalize_url_canonical "http://h/mcp").2.2.1 (by decide)⟩

/-! ## Structure of the broker setup loop -/

theorem aenterLoop_eq (l : List (ServerConfig × SetupOutcome)) :
    ∀ (i : Nat) (st : BrokerState),
    aenterLoop i l st =
      { tools := st.tools ++ okTools l
        sessions := st.sessions ++ okIndicesFrom i l
        transportOpened := st.transportOpened ++ transportsFrom i l
        connectAttempted := (st.connectAttempted.1 ++ (attemptsFrom i l).1,
          st.connectAttempted.2 ++ (attemptsFrom i l).2) } := by
  induction l with
  | nil =>
    intro i st
    simp [aenterLoop, okTools, okIndicesFrom, transportsFrom, attemptsFrom]
  | cons p rest ih =>
    intro i st
    obtain ⟨cfg, out⟩ := p
    rw [aenterLoop, ih]
    cases out <;>
      simp [okTools, okIndicesFrom, transportsFrom, attemptsFrom, setupProvider,
        SetupOutcome.isOk, SetupOutcome.reachedTransportOpen, List.append_assoc]

theorem brokerEnter_spec (l : List (ServerConfig × SetupOutcome)) :
    brokerEnter l =
      { tools := okTools l
        sessions := okIndicesFrom 0 l
        transportOpened := transportsFrom 0 l
        connectAttempted := attemptsFrom 0 l } := by
  rw [brokerEnter, aenterLoop_eq]
  simp

theorem okTools_append (a b : List (ServerConfig × SetupOutcome)) :
    okTools (a ++ b) = okTools a ++ okTools b := by
  induction a with
  | nil => simp [okTools]
  | cons p rest ih =>
    obtain ⟨cfg, out⟩ := p
    simp [okTools, ih, List.append_assoc]

theorem okIndicesFrom_length (l : List (ServerConfig × SetupOutcome)) :
    ∀ i : Nat, (okIndicesFrom i l).length = (l.filter (fun p => p.2.isOk)).length := by
  induction l with
  | nil => intro i; simp [okIndicesFrom]
  | cons p rest ih =>
    intro i
    obtain ⟨cfg, out⟩ := p
    cases out <;> simp [okIndicesFrom, SetupOutcome.isOk, ih]

theorem okIndicesFrom_ge (l : List (ServerConfig × SetupOutcome)) :
    ∀ (i : Nat), ∀ j ∈ okIndicesFrom i l, i ≤ j := by
  induction l with
  | nil => intro i j hj; simp [okIndicesFrom] at hj
  | cons p rest ih =>
    intro i j hj
    obtain ⟨cfg, out⟩ := p
    rw [okIndicesFrom] at hj
    rcases List.mem_append.mp hj with h | h
    · cases hout : out.isOk <;> rw [hout] at h <;> simp at h
      omega
    · exact Nat.le_of_succ_le (ih (i + 1) j h)

theorem okIndicesFrom_pairwise (l : List (ServerConfig × SetupOutcome)) :
    ∀ (i : Nat), List.Pairwise (· < ·) (okIndicesFrom i l) := by
  induction l with
  | nil => intro i; simp [okIndicesFrom]
  | cons p rest ih =>
    intro i
    obtain ⟨cfg, out⟩ := p
    rw [okIndicesFrom]
    cases hout : out.isOk
    · simpa using ih (i + 1)
    · simp only [if_pos rfl, List.singleton_append]
      exact List.pairwise_cons.mpr
        ⟨fun j hj => Nat.lt_of_succ_le (okIndicesFrom_ge rest (i + 1) j hj), ih (i + 1)⟩

theorem attemptsFrom_fst_length (l : List (ServerConfig × SetupOutcome)) :
    ∀ i : Nat, ((attemptsFrom i l).1).length = l.length := by
  induction l with
  | nil => intro i; simp [attemptsFrom]
  | cons p rest ih =>
    intro i
    obtain ⟨cfg, out⟩ := p
    simp [attemptsFrom, ih]

/-- C1 counterexample: with two providers that both advertise a tool named
"search", the merged catalog handed to agent creation contains two entries
named "search", not exactly one; no de-duplication happens. -/
theorem c1_counterexample :
    ((mergedCatalog [retrieveDosiblogContext]
        (brokerEnter
          [(({ name := "alpha", url := "http://a/mcp" } : ServerConfig),
              SetupOutcome.ok
                [{ name := "search", description := "search of provider alpha" }]),
            (({ name := "beta", url := "http://b/mcp" } : ServerConfig),
              SetupOutcome.ok
                [{ name := "search", description := "search of provider beta" }])]).tools).filter
        (fun t => t.name == "search")).length = 2
  ∧ ((mergedCatalog [retrieveDosiblogContext]
        (brokerEnter
          [(({ name := "alpha", url := "http://a/mcp" } : ServerConfig),
              SetupOutcome.ok
                [{ name := "search", description := "search of provider alpha" }]),
            (({ name := "beta", url := "http://b/mcp" } : ServerConfig),
              SetupOutcome.ok
                [{ name := "search", description := "search of provider beta" }])]).tools).filter
        (fun t => t.name == "search")).length ≠ 1 := by
  decide

/-- C1 amended: the merged catalog handed to the agent is the plain
concatenation of the local tools and every successful provider's discovered
tools, in provider-list order then discovery order; colliding tool names are
kept, one catalog entry per advertising provider (nothing is dropped), so for
every name the catalog holds as many entries as the local tools and the
providers together advertise under it. -/
theorem c1_merged_catalog_keeps_duplicates
    (l : List (ServerConfig × SetupOutcome)) (localTools : List Tool) (n : String) :
    mergedCatalog localTools (brokerEnter l).tools = localTools ++ okTools l
  ∧ ((mergedCatalog localTools (brokerEnter l).tools).filter (fun t => t.name == n)).length
      = (localTools.filter (fun t => t.name == n)).length
        + ((okTools l).filter (fun t => t.name == n)).length := by
  rw [mergedCatalog, brokerEnter_spec]
  exact ⟨rfl, by simp⟩

/-- C2 counterexample: one provider whose transport opens but whose protocol
handshake fails reaches transport-open state, yet `__aexit__` performs zero
teardown attempts for it, because line 107 never appended its
`(client, session)` pair to `self.sessions`. -/
theorem c2_counterexample :
    ((brokerEnter
        [(({ name := "a", url := "http://h/mcp" } : ServerConfig),
            SetupOutcome.sessionFail "initialize failed")]).transportOpened).length = 1
  ∧ (brokerExit (brokerEnter
        [(({ name := "a", url := "http://h/mcp" } : ServerConfig),
            SetupOutcome.sessionFail "initialize failed")])).length = 0
  ∧ (brokerExit (brokerEnter
        [(({ name := "a", url := "http://h/mcp" } : ServerConfig),
            SetupOutcome.sessionFail "initialize failed")])).length
      ≠ ((brokerEnter
        [(({ name := "a", url := "http://h/mcp" } : ServerConfig),
            SetupOutcome.sessionFail "initialize failed")]).transportOpened).length := by
  decide

/-- C2 amended: for every combination of per-provider setup outcomes, the
number of teardown attempts on scope exit equals the number of sessions whose
setup completed in full (transport open, handshake and discovery all
succeeded) — not the number that merely reached transport-open state — and
the teardown order is the exact reverse of the setup order (the attempted
indices are the successfully set-up provider indices, strictly decreasing). -/
theorem c2_teardown_matches_completed_sessions (l : List (ServerConfig × SetupOutcome)) :
    brokerExit (brokerEnter l) = (okIndicesFrom 0 l).reverse
  ∧ (brokerExit (brokerEnter l)).length = (l.filter (fun p => p.2.isOk)).length
  ∧ List.Pairwise (· > ·) (brokerExit (brokerEnter l)) := by
  rw [brokerEnter_spec, brokerExit]
  refine ⟨rfl, ?_, ?_⟩
  · rw [List.length_reverse, okIndicesFrom_length]
  · exact List.pairwise_reverse.mpr (okIndicesFrom_pairwise l 0)

/-- C3: when one provider of the configured list fails at connection,
handshake or discovery and the others succeed, the broker does not raise (the
exception is caught at lines 112-121 and the loop continues), and the merged
catalog contains exactly the local tools followed by the tools of the other
providers, in order; the failing provider contributes zero tools. -/
theorem c3_provider_failure_isolated
    (pre post : List (ServerConfig × SetupOutcome))
    (cfg : ServerConfig) (out : SetupOutcome) (localTools : List Tool)
    (hfail : out.isOk = false)
    (_hpre : ∀ p ∈ pre, (p.2).isOk = true)
    (_hpost : ∀ p ∈ post, (p.2).isOk = true) :
    mergedCatalog localTools (brokerEnter (pre ++ (cfg, out) :: post)).tools
      = localTools ++ (okTools pre ++ okTools post) := by
  rw [mergedCatalog, brokerEnter_spec]
  have hmid : okTools ((cfg, out) :: post) = okTools post := by
    cases out with
    | ok ts => exact absurd hfail (by simp [SetupOutcome.isOk])
    | connectFail m => simp [okTools]
    | sessionFail m => simp [okTools]
    | discoverFail m => simp [okTools]
  change localTools ++ okTools (pre ++ (cfg, out) :: post)
    = localTools ++ (okTools pre ++ okTools post)
  rw [okTools_append, hmid]

theorem c3_witness :
    ((SetupOutcome.connectFail "502 Bad Gateway" : SetupOutcome).isOk = false)
  ∧ mergedCatalog [retrieveDosiblogContext]
      (brokerEnter
        [(({ name := "alpha", url := "http://a/mcp" } : ServerConfig),
            SetupOutcome.ok [{ name := "add", description := "adds numbers" }]),
          (({ name := "down", url := "http://down/mcp" } : ServerConfig),
            SetupOutcome.connectFail "502 Bad Gateway"),
          (({ name := "beta", url := "http://b/mcp" } : ServerConfig),
            SetupOutcome.ok [{ name := "weather", description := "weather lookup" }])]).tools
    = [retrieveDosiblogContext]
        ++ (okTools [(({ name := "alpha", url := "http://a/mcp" } : ServerConfig),
              SetupOutcome.ok [{ name := "add", description := "adds numbers" }])]
          ++ okTools [(({ name := "beta", url := "http://b/mcp" } : ServerConfig),
              SetupOutcome.ok [{ name := "weather", description := "weather lookup" }])]) :=
  ⟨by decide,
    c3_provider_failure_isolated
      [(({ name := "alpha", url := "http://a/mcp" } : ServerConfig),
          SetupOutcome.ok [{ name := "add", description := "adds numbers" }])]
      [(({ name := "beta", url := "http://b/mcp" } : ServerConfig),
          SetupOutcome.ok [{ name := "weather", description := "weather lookup" }])]
      ({ name := "down", url := "http://down/mcp" } : ServerConfig)
      (SetupOutcome.connectFail "502 Bad Gateway")
      [retrieveDosiblogContext] (by decide) (by decide) (by decide)⟩

/-- C8 counterexample: a provider whose endpoint is not a valid absolute URL
even after normalization is not rejected: the loop still reaches the
transport-open call for it (a connection attempt is made at the normalized
URL), so malformed entries are not filtered out before any connection
attempt. -/
theorem c8_counterexample :
    isAbsoluteUrl (normalizeUrl "not a url") = false
  ∧ (brokerEnter
      [(({ name := "bad", url := "not a url" } : ServerConfig),
          SetupOutcome.connectFail "connection refused")]).connectAttempted
      = ([0], [normalizeUrl "not a url"])
  ∧ (brokerEnter
      [(({ name := "bad", url := "not a url" } : ServerConfig),
          SetupOutcome.connectFail "connection refused")]).connectAttempted.1 ≠ [] := by
  decide

/-- C8 amended: the broker performs no URL-validity check at all: for every
provider list, every configured descriptor — malformed or not — proceeds to a
connection attempt at its normalized URL (one attempt per descriptor); a
failing attempt is caught like any provider failure and the descriptor
contributes zero tools. -/
theorem c8_no_url_validation (l : List (ServerConfig × SetupOutcome)) :
    (brokerEnter l).connectAttempted = attemptsFrom 0 l
  ∧ ((brokerEnter l).connectAttempted.1).length = l.length := by
  rw [brokerEnter_spec]
  exact ⟨rfl, attemptsFrom_fst_length l 0⟩

/-- C9: when `prefer_local` is set and a configured provider's lowercased
name matches the local registry, the broker overwrites the `url` field of the
caller-supplied config dict in place with the local URL
`{base_url}/api/mcp/{name}/mcp`; consequently, for some inputs the provider
list the caller passed in is not left unchanged by a broker invocation. -/
theorem c9_local_rewrite_mutates_config (port : String) (cfg : ServerConfig)
    (h : localServerNames.contains (strLower cfg.name) = true) :
    (rewriteLocal port cfg).url
      = localBaseUrl port ++ "/api/mcp/" ++ strLower cfg.name ++ "/mcp"
  ∧ preferLocalRewrite "8000"
      [({ name := "math", url := "https://external.example.com/mcp" } : ServerConfig)]
    ≠ [({ name := "math", url := "https://external.example.com/mcp" } : ServerConfig)] := by
  constructor
  · rw [rewriteLocal]
    simp only [h, if_pos]
  · decide

theorem c9_witness :
    localServerNames.contains
        (strLower ({ name := "math", url := "https://external.example.com/mcp" } : ServerConfig).name)
      = true
  ∧ (rewriteLocal "8000"
        ({ name := "math", url := "https://external.example.com/mcp" } : ServerConfig)).url
      = localBaseUrl "8000" ++ "/api/mcp/"
        ++ strLower ({ name := "math", url := "https://external.example.com/mcp" } : ServerConfig).name
        ++ "/mcp" :=
  ⟨by decide,
    (c9_local_rewrite_mutates_config "8000"
      ({ name := "math", url := "https://external.example.com/mcp" } : ServerConfig)
      (by decide)).1⟩

/-! ## History store lemmas -/

theorem lookupSession_append_self (st : HistoryStore) (sid : String)
    (h : lookupSession st sid = none) :
    lookupSession (st ++ [(sid, [])]) sid = some [] := by
  induction st with
  | nil => simp [lookupSession]
  | cons p rest ih =>
    obtain ⟨k, v⟩ := p
    rw [lookupSession] at h
    by_cases hk : (k == sid) = true
    · rw [if_pos hk] at h
      cases h
    · rw [if_neg hk] at h
      rw [List.cons_append, lookupSession, if_neg hk]
      exact ih h

theorem lookupSession_getOrCreate (st : HistoryStore) (sid : String) :
    lookupSession (getOrCreate st sid) sid = some ((lookupSession st sid).getD []) := by
  rw [getOrCreate]
  cases h : lookupSession st sid with
  | some v => rw [h]; rfl
  | none => rw [lookupSession_append_self st sid h]; rfl

theorem lookupSession_appendInStore (st : HistoryStore) (sid : String) (m : Message) :
    lookupSession (appendInStore st sid m) sid
      = (lookupSession st sid).map (fun v => v ++ [m]) := by
  induction st with
  | nil => simp [appendInStore, lookupSession]
  | cons p rest ih =>
    obtain ⟨k, v⟩ := p
    rw [appendInStore]
    by_cases hk : (k == sid) = true
    · rw [if_pos hk, lookupSession, if_pos hk, lookupSession, if_pos hk]
      rfl
    · rw [if_neg hk, lookupSession, if_neg hk, lookupSession, if_neg hk, ih]

theorem lookupSession_addMessage (st : HistoryStore) (sid : String) (m : Message) :
    lookupSession (addMessage st sid m) sid
      = some (((lookupSession st sid).getD []) ++ [m]) := by
  rw [addMessage, get_session_history]
  rw [lookupSession_appendInStore, lookupSession_getOrCreate]
  rfl

theorem lookupSession_clearInStore (st : HistoryStore) (sid : String) :
    lookupSession (clearInStore st sid) sid
      = (lookupSession st sid).map (fun _ => []) := by
  induction st with
  | nil => simp [clearInStore, lookupSession]
  | cons p rest ih =>
    obtain ⟨k, v⟩ := p
    rw [clearInStore]
    by_cases hk : (k == sid) = true
    · rw [if_pos hk, lookupSession, if_pos hk, lookupSession, if_pos hk]
      rfl
    · rw [if_neg hk, lookupSession, if_neg hk, lookupSession, if_neg hk, ih]

theorem mem_list_sessions (st : HistoryStore) (sid : String) :
    sid ∈ list_sessions st ↔ ∃ v, lookupSession st sid = some v := by
  induction st with
  | nil => simp [list_sessions, lookupSession]
  | cons p rest ih =>
    obtain ⟨k, v⟩ := p
    rw [list_sessions] at ih ⊢
    by_cases hk : k = sid
    · subst hk
      simp [lookupSession]
    · have hbeq : (k == sid) = false := beq_eq_false_iff_ne.mpr hk
      rw [List.map_cons, List.mem_cons, lookupSession, hbeq]
      simp only [Bool.false_eq_true, if_false]
      constructor
      · intro hc
        rcases hc with hc | hc
        · exact absurd hc.symm hk
        · exact ih.mp hc
      · intro hc
        exact Or.inr (ih.mpr hc)

/-- C6: on a fresh session id, appending a user turn then an assistant turn
and then fetching the session's history (via `get_session_messages` or via
`get_session_history`) returns exactly those two turns in that order;
clearing the session afterwards yields an empty turn sequence while
`list_sessions` still reports the session id; and `clear_session` on a
session id never seen by the lazy-creation path does not create a session. -/
theorem c6_history_round_trip (st : HistoryStore) (sid q a : String)
    (hfresh : lookupSession st sid = none) :
    (get_session_messages
        (addMessage (addMessage st sid ⟨Role.user, q⟩) sid ⟨Role.assistant, a⟩) sid).1
      = [⟨Role.user, q⟩, ⟨Role.assistant, a⟩]
  ∧ (get_session_history
        (addMessage (addMessage st sid ⟨Role.user, q⟩) sid ⟨Role.assistant, a⟩) sid).1
      = [⟨Role.user, q⟩, ⟨Role.assistant, a⟩]
  ∧ (get_session_messages
        (clear_session
          (addMessage (addMessage st sid ⟨Role.user, q⟩) sid ⟨Role.assistant, a⟩) sid) sid).1
      = []
  ∧ sid ∈ list_sessions
      (clear_session
        (addMessage (addMessage st sid ⟨Role.user, q⟩) sid ⟨Role.assistant, a⟩) sid)
  ∧ (∀ (st' : HistoryStore) (s' : String), lookupSession st' s' = none →
      list_sessions (clear_session st' s') = list_sessions st') := by
  have h1 : lookupSession (addMessage st sid ⟨Role.user, q⟩) sid
      = some [⟨Role.user, q⟩] := by
    rw [lookupSession_addMessage, hfresh]
    rfl
  have h2 : lookupSession
      (addMessage (addMessage st sid ⟨Role.user, q⟩) sid ⟨Role.assistant, a⟩) sid
      = some [⟨Role.user, q⟩, ⟨Role.assistant, a⟩] := by
    rw [lookupSession_addMessage, h1]
    rfl
  have h3 : lookupSession
      (clear_session
        (addMessage (addMessage st sid ⟨Role.user, q⟩) sid ⟨Role.assistant, a⟩) sid) sid
      = some [] := by
    rw [clear_session, h2, lookupSession_clearInStore, h2]
    rfl
  refine ⟨?_, ?_, ?_, ?_, ?_⟩
  · rw [get_session_messages, h2]
  · rw [get_session_history, lookupSession_getOrCreate, h2]
    rfl
  · rw [get_session_messages, h3]
  · exact (mem_list_sessions _ sid).mpr ⟨[], h3⟩
  · intro st' s' hnone
    rw [clear_session, hnone]

theorem c6_witness :
    lookupSession ([] : HistoryStore) "s1" = none
  ∧ (get_session_messages
        (addMessage (addMessage ([] : HistoryStore) "s1" ⟨Role.user, "What is X?"⟩)
          "s1" ⟨Role.assistant, "X is Y"⟩) "s1").1
      = [⟨Role.user, "What is X?"⟩, ⟨Role.assistant, "X is Y"⟩] :=
  ⟨rfl, (c6_history_round_trip [] "s1" "What is X?" "X is Y" rfl).1⟩

/-- C10: reading the messages of a session id never seen by the
lazy-creation path returns the empty list and leaves the store unchanged —
the id does not appear in `list_sessions` afterwards, so read-only history
queries never create sessions. -/
theorem c10_read_does_not_create (st : HistoryStore) (sid : String)
    (h : lookupSession st sid = none) :
    get_session_messages st sid = ([], st)
  ∧ sid ∉ list_sessions (get_session_messages st sid).2 := by
  have h1 : get_session_messages st sid = ([], st) := by
    rw [get_session_messages, h]
  refine ⟨h1, ?_⟩
  rw [h1]
  intro hmem
  obtain ⟨v, hv⟩ := (mem_list_sessions st sid).mp hmem
  rw [h] at hv
  cases hv

theorem c10_witness :
    lookupSession [("other", [])] "ghost" = none
  ∧ get_session_messages [("other", [])] "ghost" = ([], [("other", [])]) :=
  ⟨by decide, (c10_read_does_not_create [("other", [])] "ghost" (by decide)).1⟩

/-! ## Tool-call validation in the chat dispatch loops -/

theorem processToolCalls_unknown (all_tools : List Tool) (tool_names : List String)
    (pre : List String) (name : String) (rest : List String) :
    ∀ st : StreamState,
    (∀ p ∈ pre, all_tools.any (fun t => t.name == p) = true) →
    all_tools.any (fun t => t.name == name) = false →
    ∃ notes : List String,
      processToolCalls all_tools tool_names (pre ++ name :: rest) st
        = Except.error ((notes.map StreamItem.toolNote)
            ++ [StreamItem.errorDone (toolErrorMsg name tool_names)])
      ∧ ∀ x ∈ notes, x ∈ pre := by
  induction pre with
  | nil =>
    intro st _ hname
    refine ⟨[], ?_, by simp⟩
    rw [List.nil_append, processToolCalls, if_neg]
    · rfl
    · rw [hname]
      simp
  | cons p ps ih =>
    intro st hpre hname
    have hp : all_tools.any (fun t => t.name == p) = true :=
      hpre p (List.mem_cons_self p ps)
    rw [List.cons_append, processToolCalls, if_pos hp]
    have hps : ∀ x ∈ ps, all_tools.any (fun t => t.name == x) = true :=
      fun x hx => hpre x (List.mem_cons_of_mem p hx)
    by_cases hseen : st.seen_tools.contains p = true
    · rw [if_pos hseen]
      obtain ⟨notes, heq, hmem⟩ := ih st hps hname
      exact ⟨notes, heq, fun x hx => List.mem_cons_of_mem p (hmem x hx)⟩
    · rw [if_neg hseen]
      obtain ⟨notes, heq, hmem⟩ := ih
        { st with
          tool_calls_made := st.tool_calls_made ++ [p]
          seen_tools := st.seen_tools ++ [p] } hps hname
      rw [heq]
      exact ⟨p :: notes, rfl, by
        intro x hx
        rcases List.mem_cons.mp hx with hx | hx
        · exact hx ▸ List.mem_cons_self p ps
        · exact List.mem_cons_of_mem p (hmem x hx)⟩

/-- C4 counterexample: in the non-streaming `chat` endpoint the model
proposes a tool name absent from the merged catalog, yet the request
completes with a normal response (no validation error is surfaced) and the
hallucinated name is even recorded in `tools_used`; so the claimed rejection
does not hold on the non-streaming path. -/
theorem c4_counterexample :
    ([retrieveDosiblogContext].map Tool.name).contains "made_up_tool" = false
  ∧ chatEndpointAgent [retrieveDosiblogContext]
      [AgentEvent.aiToolCalls ["made_up_tool"], AgentEvent.aiAnswer "hello"]
    = Except.ok { final_answer := "hello", tools_used := ["made_up_tool"] } := by
  constructor
  · decide
  · rfl

/-- C4 amended: only the streaming chat path validates proposed tool names
against the catalog: when the model proposes a name absent from the catalog
(after any number of known names), the SSE stream ends with the validation
error event — preceded only by tool notifications for the earlier, known
names — and no further event is processed; the non-streaming path performs no
validation and always completes with a normal response built by its plain
accumulation loop. -/
theorem c4_stream_validates_nonstream_does_not
    (all_tools : List Tool) (pre restNames : List String) (name : String)
    (events : List AgentEvent) (st : StreamState)
    (hpre : ∀ p ∈ pre, all_tools.any (fun t => t.name == p) = true)
    (hname : all_tools.any (fun t => t.name == name) = false) :
    (∃ notes : List String,
        streamAgentLoop all_tools (all_tools.map Tool.name)
            (AgentEvent.aiToolCalls (pre ++ name :: restNames) :: events) st
          = (notes.map StreamItem.toolNote)
              ++ [StreamItem.errorDone (toolErrorMsg name (all_tools.map Tool.name))]
      ∧ ∀ x ∈ notes, x ∈ pre)
  ∧ (∀ (catalog : List Tool) (evs : List AgentEvent),
      chatEndpointAgent catalog evs
        = Except.ok (chatAgentLoop evs { final_answer := "", tools_used := [] })) := by
  constructor
  · obtain ⟨notes, heq, hmem⟩ :=
      processToolCalls_unknown all_tools (all_tools.map Tool.name)
        pre name restNames st hpre hname
    refine ⟨notes, ?_, hmem⟩
    rw [streamAgentLoop]
    have hstep : processStreamEvent all_tools (all_tools.map Tool.name)
        (AgentEvent.aiToolCalls (pre ++ name :: restNames)) st
        = Except.error ((notes.map StreamItem.toolNote)
            ++ [StreamItem.errorDone (toolErrorMsg name (all_tools.map Tool.name))]) := by
      rw [processStreamEvent, heq]
    rw [hstep]
  · intro catalog evs
    rfl

theorem c4_witness :
    [retrieveDosiblogContext].any (fun t => t.name == "made_up_tool") = false
  ∧ (∃ notes : List String,
      streamAgentLoop [retrieveDosiblogContext] ([retrieveDosiblogContext].map Tool.name)
          [AgentEvent.aiToolCalls ["made_up_tool"]]
          { full_response := "", tool_calls_made := [], seen_tools := [] }
        = (notes.map StreamItem.toolNote)
            ++ [StreamItem.errorDone
              (toolErrorMsg "made_up_tool" ([retrieveDosiblogContext].map Tool.name))]
      ∧ ∀ x ∈ notes, x ∈ ([] : List String)) :=
  ⟨by decide,
    (c4_stream_validates_nonstream_does_not [retrieveDosiblogContext] [] []
      "made_up_tool" []
      { full_response := "", tool_calls_made := [], seen_tools := [] }
      (by simp) (by decide)).1⟩

end RagMcp
